import Mathlib

/-!
Verification of the column-mapping and standardization engine of the
Inventory_Tool repository (src/app.py, src/db.py).

Strings are modelled by Lean `String` (a wrapper around `List Char`); the
Python string operations used by the code (`str.strip`, `str.lower`,
`str.replace` on single characters) are defined on the underlying character
list.  Spreadsheet cell values are modelled by `Value` (a string, a
non-string scalar, or missing/NaN); a pandas `DataFrame` is modelled by `DF`
(ordered headers plus rows of cell values).
-/

/-- Python `s.strip()` restricted to the character list: drop whitespace from
the front and from the back. -/
def dropTrail {α : Type} (p : α → Bool) (l : List α) : List α :=
  (l.reverse.dropWhile p).reverse

/-- Leading and trailing whitespace removal on a character list, as performed
by Python `str.strip()`. -/
def trimChars (l : List Char) : List Char :=
  dropTrail Char.isWhitespace (l.dropWhile Char.isWhitespace)

/-- Python `s.strip()`. -/
def pyStrip (s : String) : String := String.mk (trimChars s.data)

/-- Python `s.lower()` (character-wise; Lean `Char.toLower` covers the basic
latin letters, which is the alphabet exercised by this repository). -/
def pyLower (s : String) : String := String.mk (s.data.map Char.toLower)

/-- Replacement of one newline character by a space, as done by
`.replace("\n", " ")` in `norm` (single characters, so character-wise). -/
def replNL (c : Char) : Char := if c = '\n' then ' ' else c

/-- Replacement of one tab character by a space, as done by
`.replace("\t", " ")` in `norm`. -/
def replTab (c : Char) : Char := if c = '\t' then ' ' else c

/-- Python `s.replace("\n", " ")`. -/
def pyReplaceNL (s : String) : String := String.mk (s.data.map replNL)

/-- Python `s.replace("\t", " ")`. -/
def pyReplaceTab (s : String) : String := String.mk (s.data.map replTab)

/-- app.py `norm`: `str(s).strip().lower().replace("\n", " ").replace("\t", " ")`
(the `str` conversion is the identity here because the input is a string). -/
def norm (s : String) : String := pyReplaceTab (pyReplaceNL (pyLower (pyStrip s)))

/-- The per-character action of `norm` after the strip: lowercase, then
newline to space, then tab to space. -/
def normChar (c : Char) : Char := replTab (replNL (Char.toLower c))

theorem str_ext {a b : String} (h : a.data = b.data) : a = b := by
  cases a; cases b; cases h; rfl

theorem char_toNat_inj {c d : Char} (h : c.toNat = d.toNat) : c = d :=
  Char.ext (UInt32.toNat.inj h)

theorem toLower_toNat (c : Char) :
    (Char.toLower c).toNat =
      if 65 ≤ c.toNat ∧ c.toNat ≤ 90 then c.toNat + 32 else c.toNat := by
  unfold Char.toLower
  split
  · next h =>
    rw [if_pos h]
    have hv : (c.toNat + 32).isValidChar := Or.inl (by omega)
    rw [Char.ofNat, dif_pos hv]
    rfl
  · next h => rw [if_neg h]

theorem isWS_iff (c : Char) :
    c.isWhitespace = true ↔
      (c.toNat = 32 ∨ c.toNat = 9 ∨ c.toNat = 13 ∨ c.toNat = 10) := by
  unfold Char.isWhitespace
  simp only [Bool.or_eq_true, decide_eq_true_eq]
  constructor
  · rintro (((rfl | rfl) | rfl) | rfl) <;> decide
  · rintro (h | h | h | h)
    · exact Or.inl (Or.inl (Or.inl (char_toNat_inj (by rw [h]; rfl))))
    · exact Or.inl (Or.inl (Or.inr (char_toNat_inj (by rw [h]; rfl))))
    · exact Or.inl (Or.inr (char_toNat_inj (by rw [h]; rfl)))
    · exact Or.inr (char_toNat_inj (by rw [h]; rfl))

theorem replNL_toNat (d : Char) :
    (replNL d).toNat = if d.toNat = 10 then 32 else d.toNat := by
  unfold replNL
  split
  · next h => rw [h]; rfl
  · next h =>
    rw [if_neg]
    intro h10
    exact h (char_toNat_inj (by rw [h10]; rfl))

theorem replTab_toNat (d : Char) :
    (replTab d).toNat = if d.toNat = 9 then 32 else d.toNat := by
  unfold replTab
  split
  · next h => rw [h]; rfl
  · next h =>
    rw [if_neg]
    intro h9
    exact h (char_toNat_inj (by rw [h9]; rfl))

theorem normChar_toNat (c : Char) :
    (normChar c).toNat =
      if (Char.toLower c).toNat = 10 then 32
      else if (Char.toLower c).toNat = 9 then 32
      else (Char.toLower c).toNat := by
  unfold normChar
  rw [replTab_toNat, replNL_toNat]
  split_ifs <;> omega

theorem normChar_isWS (c : Char) :
    (normChar c).isWhitespace = c.isWhitespace := by
  rw [Bool.eq_iff_iff, isWS_iff, isWS_iff, normChar_toNat, toLower_toNat]
  split_ifs <;> omega

theorem normChar_idem (c : Char) : normChar (normChar c) = normChar c := by
  apply char_toNat_inj
  rw [normChar_toNat (normChar c), toLower_toNat (normChar c),
    normChar_toNat c, toLower_toNat c]
  split_ifs <;> omega

theorem dropWhile_head? {α : Type} (p : α → Bool) (l : List α) :
    ∀ a ∈ (l.dropWhile p).head?, p a = false := by
  induction l with
  | nil => simp [List.dropWhile]
  | cons x t ih =>
    rw [List.dropWhile_cons]
    split
    · exact ih
    · next h =>
      intro a ha
      simp only [List.head?, Option.mem_def, Option.some.injEq] at ha
      rw [← ha]
      simpa using h

theorem dropWhile_eq_self {α : Type} (p : α → Bool) (l : List α)
    (h : ∀ a ∈ l.head?, p a = false) : l.dropWhile p = l := by
  cases l with
  | nil => rfl
  | cons x t =>
    rw [List.dropWhile_cons, if_neg]
    have := h x (by simp [List.head?])
    simp [this]

theorem dropWhile_suffix {α : Type} (p : α → Bool) (l : List α) :
    ∃ t, t ++ l.dropWhile p = l := by
  induction l with
  | nil => exact ⟨[], rfl⟩
  | cons x t ih =>
    by_cases h : p x = true
    · obtain ⟨u, hu⟩ := ih
      exact ⟨x :: u, by rw [List.dropWhile_cons, if_pos h, List.cons_append, hu]⟩
    · exact ⟨[], by rw [List.dropWhile_cons, if_neg h, List.nil_append]⟩

theorem dropTrail_prefix_eq {α : Type} (p : α → Bool) (l : List α) :
    ∃ t, dropTrail p l ++ t = l := by
  obtain ⟨t, ht⟩ := dropWhile_suffix p l.reverse
  refine ⟨t.reverse, ?_⟩
  rw [dropTrail, ← List.reverse_append, ht, List.reverse_reverse]

theorem dropTrail_getLast? {α : Type} (p : α → Bool) (l : List α) :
    ∀ a ∈ (dropTrail p l).getLast?, p a = false := by
  intro a ha
  rw [dropTrail, List.getLast?_reverse] at ha
  exact dropWhile_head? p l.reverse a ha

theorem dropTrail_eq_self {α : Type} (p : α → Bool) (l : List α)
    (h : ∀ a ∈ l.getLast?, p a = false) : dropTrail p l = l := by
  rw [dropTrail, dropWhile_eq_self, List.reverse_reverse]
  intro a ha
  rw [List.head?_reverse] at ha
  exact h a ha

theorem trimChars_head? (l : List Char) :
    ∀ a ∈ (trimChars l).head?, a.isWhitespace = false := by
  intro a ha
  obtain ⟨t, ht⟩ := dropTrail_prefix_eq Char.isWhitespace (l.dropWhile Char.isWhitespace)
  have h2 := dropWhile_head? Char.isWhitespace l
  cases hc : trimChars l with
  | nil => rw [hc] at ha; simp at ha
  | cons b bs =>
    rw [hc] at ha
    simp only [List.head?, Option.mem_def, Option.some.injEq] at ha
    subst ha
    apply h2
    rw [← ht]
    unfold trimChars at hc
    rw [hc]
    simp [List.head?]

theorem trimChars_getLast? (l : List Char) :
    ∀ a ∈ (trimChars l).getLast?, a.isWhitespace = false :=
  dropTrail_getLast? Char.isWhitespace (l.dropWhile Char.isWhitespace)

theorem trimChars_eq_self (l : List Char)
    (h1 : ∀ a ∈ l.head?, a.isWhitespace = false)
    (h2 : ∀ a ∈ l.getLast?, a.isWhitespace = false) : trimChars l = l := by
  rw [trimChars, dropWhile_eq_self _ _ h1, dropTrail_eq_self _ _ h2]

theorem norm_data (s : String) :
    (norm s).data = (trimChars s.data).map normChar := by
  show ((((trimChars s.data).map Char.toLower).map replNL).map replTab)
      = (trimChars s.data).map normChar
  simp only [List.map_map]
  rfl

theorem trimChars_map_normChar (y : List Char) (hy : trimChars y = y) :
    trimChars (y.map normChar) = y.map normChar := by
  apply trimChars_eq_self
  · intro a ha
    rw [List.head?_map, Option.mem_def] at ha
    obtain ⟨b, hb, hab⟩ := Option.map_eq_some'.mp ha
    rw [← hab, normChar_isWS]
    exact trimChars_head? y b (by rw [Option.mem_def, hy]; exact hb)
  · intro a ha
    rw [List.getLast?_map, Option.mem_def] at ha
    obtain ⟨b, hb, hab⟩ := Option.map_eq_some'.mp ha
    rw [← hab, normChar_isWS]
    exact trimChars_getLast? y b (by rw [Option.mem_def, hy]; exact hb)

theorem trimChars_idem (l : List Char) : trimChars (trimChars l) = trimChars l :=
  trimChars_eq_self _ (trimChars_head? l) (trimChars_getLast? l)

theorem map_normChar_idem (y : List Char) :
    (y.map normChar).map normChar = y.map normChar := by
  induction y with
  | nil => rfl
  | cons a t ih => simp only [List.map_cons, ih, normChar_idem]

theorem norm_idem (s : String) : norm (norm s) = norm s := by
  apply str_ext
  rw [norm_data, norm_data]
  rw [trimChars_map_normChar (trimChars s.data) (trimChars_idem s.data)]
  exact map_normChar_idem (trimChars s.data)

theorem pyStrip_idem (s : String) : pyStrip (pyStrip s) = pyStrip s := by
  apply str_ext
  simp only [pyStrip]
  exact trimChars_idem s.data

/-- A spreadsheet cell value as seen through pandas: a string, a non-string
scalar (modelled as an integer), or missing (NaN/None). -/
inductive Value where
  | vstr (s : String)
  | vnum (n : Int)
  | vmissing
deriving DecidableEq, Repr

/-- pandas `pd.isna` on a single cell: true exactly for missing values. -/
def isna : Value → Bool
  | Value.vmissing => true
  | _ => false

/-- Python `str(v)` on a cell value (`str` of a float NaN is `"nan"`). -/
def pyStr : Value → String
  | Value.vstr s => s
  | Value.vnum n => toString n
  | Value.vmissing => "nan"

/-- A pandas DataFrame: ordered column headers and rows of cell values, row
`k` holding the value of column `i` at position `i`. -/
structure DF where
  headers : List String
  rows : List (List Value)
deriving DecidableEq, Repr

/-- Position of column `h` (first occurrence) in a header list; `none` when
the column is absent, in which case pandas raises `KeyError`. -/
def colIndex (headers : List String) (h : String) : Option Nat :=
  match headers with
  | [] => none
  | c :: rest => if c = h then some 0 else (colIndex rest h).map (· + 1)

/-- Column selection `df[h]`: the list of values of column `h` in row order,
or `none` (the `KeyError` case) when `h` is not a column. -/
def getCol (df : DF) (h : String) : Option (List Value) :=
  match colIndex df.headers h with
  | some i => some (df.rows.map (fun row => row.getD i Value.vmissing))
  | none => none

/-- app.py `normalize_columns`: replace every header by its normalized form. -/
def normalize_columns (df : DF) : DF :=
  { headers := df.headers.map norm, rows := df.rows }

/-- The `ALIASES["supplier"]` list of app.py. -/
def supplier_aliases : List String :=
  ["supplier", "supplier name", "vendor", "vendor name", "company",
   "company name", "supplier_id", "supplier id", "supplierid"]

/-- The `ALIASES["product"]` list of app.py. -/
def product_aliases : List String :=
  ["product", "product name", "item", "item name", "sku", "service"]

/-- The `ALIASES["details"]` list of app.py. -/
def details_aliases : List String :=
  ["details", "detail", "description", "notes", "product details"]

/-- The `ALIASES["website"]` list of app.py. -/
def website_aliases : List String :=
  ["website", "url", "web", "link"]

/-- The `ALIASES["phone"]` list of app.py. -/
def phone_aliases : List String :=
  ["phone", "telephone", "tel", "contact number", "mobile"]

/-- The `ALIASES["login_info"]` list of app.py. -/
def login_info_aliases : List String :=
  ["login info", "login", "login details", "credentials", "account",
   "notes (login)", "login/notes"]

/-- The static alias table `ALIASES` of app.py, in insertion order. -/
def ALIASES : List (String × List String) :=
  [("supplier", supplier_aliases), ("product", product_aliases),
   ("details", details_aliases), ("website", website_aliases),
   ("phone", phone_aliases), ("login_info", login_info_aliases)]

/-- A column mapping: each of the six canonical fields is mapped to a raw
header or unmapped (`none`).  This is the `mapping` dict of app.py with its
six fixed keys. -/
structure Mapping where
  supplier : Option String
  product : Option String
  details : Option String
  website : Option String
  phone : Option String
  login_info : Option String
deriving DecidableEq, Repr

/-- Python `mapping.get(k)` for the six-key mapping dict. -/
def Mapping.get (m : Mapping) : String → Option String
  | "supplier" => m.supplier
  | "product" => m.product
  | "details" => m.details
  | "website" => m.website
  | "phone" => m.phone
  | "login_info" => m.login_info
  | _ => none

/-- The inner loop of `infer_mapping`: scan the alias list in priority
order, normalize each alias, and return the first normalized alias found in
the column set (`hit`), else `none`. -/
def firstAlias (colset : List String) : List String → Option String
  | [] => none
  | opt :: rest =>
    let optn := norm opt
    if optn ∈ colset then some optn else firstAlias colset rest

/-- app.py `infer_mapping`: resolve each of the six canonical fields
independently against the header set (the dict loop over `ALIASES` is
unrolled into the six fixed fields). -/
def infer_mapping (columns : List String) : Mapping :=
  { supplier := firstAlias columns supplier_aliases
    product := firstAlias columns product_aliases
    details := firstAlias columns details_aliases
    website := firstAlias columns website_aliases
    phone := firstAlias columns phone_aliases
    login_info := firstAlias columns login_info_aliases }

/-- The `used_cols` set of `build_standard_df`: all mapped raw headers
(`set(v for v in mapping.values() if v)`); only membership is used. -/
def usedCols (m : Mapping) : List String :=
  [m.supplier, m.product, m.details, m.website, m.phone, m.login_info].filterMap id

/-- Cell access `row.get(c, "")` on a row indexed by the header list. -/
def rowGet (headers : List String) (row : List Value) (c : String) : Value :=
  match colIndex headers c with
  | some i => row.getD i Value.vmissing
  | none => Value.vstr ""

/-- One cell of the details synthesis: skip missing values, then trim the
string form and skip it when empty or equal (lowercased) to `"nan"`,
otherwise keep the trimmed string.  Mirrors the body of `row_details` in
`build_details_from_remaining_columns`. -/
def usableVal (v : Value) : Option String :=
  if isna v then none
  else
    let s := pyStrip (pyStr v)
    if s = "" ∨ pyLower s = "nan" then none else some s

/-- The `parts` list built by `row_details`: for each remaining column in
order, the fragment `"<column>: <trimmed value>"` when the cell is usable. -/
def detailParts (headers : List String) (row : List Value) : List String → List String
  | [] => []
  | c :: rest =>
    match usableVal (rowGet headers row c) with
    | none => detailParts headers row rest
    | some s => (c ++ ": " ++ s) :: detailParts headers row rest

/-- The `row_details` closure of `build_details_from_remaining_columns`:
join the fragments with `" | "`. -/
def row_details (headers : List String) (remaining : List String) (row : List Value) : String :=
  String.intercalate " | " (detailParts headers row remaining)

/-- The `remaining` list of `build_details_from_remaining_columns`:
`[c for c in df_raw.columns if c not in used_cols]`. -/
def remainingCols (df : DF) (used_cols : List String) : List String :=
  df.headers.filter (fun c => ¬ used_cols.contains c)

/-- app.py `build_details_from_remaining_columns`: synthesize a details
string per row from the columns not used by the mapping, in original column
order. -/
def build_details_from_remaining_columns (df : DF) (used_cols : List String) : List String :=
  if (remainingCols df used_cols).isEmpty then df.rows.map (fun _ => "")
  else df.rows.map (fun row => row_details df.headers (remainingCols df used_cols) row)

/-- A standardized record: the six canonical fields as strings.  The same
shape serves the `Supplier`/`Product`/... display columns of
`build_standard_df` and the snake-case columns of `to_canonical` and db.py
(the rename between the two is pure relabelling). -/
structure Row where
  supplier : String
  product : String
  details : String
  website : String
  phone : String
  login_info : String
deriving DecidableEq, Repr

/-- The per-cell post-processing loop of `build_standard_df`: replace a
missing value by `""` (`where(~isna, "")`), convert to string and trim
(`astype(str).str.strip()`). -/
def cleanCell (v : Value) : String :=
  if isna v then "" else pyStrip (pyStr v)

/-- Lookup of a required mapped column (`df[mapping["supplier"]]` and
`df[mapping["product"]]`); an unmapped field or an absent column is the
pandas error case (`none`). -/
def requiredCol (df : DF) : Option String → Option (List Value)
  | some h => getCol df h
  | none => none

/-- Lookup of an optional mapped column: when unmapped the whole column is
the scalar `""` broadcast over the rows, otherwise `df[h]` (absent column:
error). -/
def optionalCol (df : DF) : Option String → Option (List Value)
  | some h => getCol df h
  | none => some (df.rows.map (fun _ => Value.vstr ""))

/-- The `Details` column of `build_standard_df`: read from the mapped column
when details is mapped, else synthesized from the remaining columns. -/
def detailsCol (df : DF) (m : Mapping) : Option (List Value) :=
  match m.details with
  | some h => getCol df h
  | none => some ((build_details_from_remaining_columns df (usedCols m)).map Value.vstr)

/-- Assembling the standardized DataFrame from its six aligned columns
(`pd.DataFrame(out)` plus the per-column cleaning loop), positionally. -/
def zipRows : List Value → List Value → List Value → List Value → List Value → List Value → List Row
  | s :: ss, p :: ps, d :: ds, w :: ws, h :: hs, l :: ls =>
    { supplier := cleanCell s, product := cleanCell p, details := cleanCell d,
      website := cleanCell w, phone := cleanCell h, login_info := cleanCell l }
      :: zipRows ss ps ds ws hs ls
  | _, _, _, _, _, _ => []

/-- The row filter of `build_standard_df` and `to_canonical`:
`(std["Supplier"] != "") & (std["Product"] != "")`. -/
def survives (r : Row) : Bool :=
  r.supplier ≠ "" && r.product ≠ ""

/-- app.py `build_standard_df` up to (but not including) the final row
filter: build the six columns and clean every cell. -/
def build_raw_records (df : DF) (m : Mapping) : Option (List Row) :=
  (requiredCol df m.supplier).bind fun sup =>
  (requiredCol df m.product).bind fun prod =>
  (optionalCol df m.website).bind fun web =>
  (optionalCol df m.phone).bind fun ph =>
  (optionalCol df m.login_info).bind fun li =>
  (detailsCol df m).bind fun det =>
  some (zipRows sup prod det web ph li)

/-- app.py `build_standard_df`: clean all cells, then keep only the rows
with non-empty supplier and product, densely reindexed (`reset_index`), which
in the list model is exactly `List.filter`. -/
def build_standard_df (df : DF) (m : Mapping) : Option (List Row) :=
  (build_raw_records df m).map (fun recs => recs.filter survives)

/-- app.py `to_canonical`: relabel the six columns (identity on the record
model), re-apply `astype(str)`/`fillna("")` (identities on strings), strip
supplier and product again, and re-apply the non-empty filter. -/
def to_canonical (df_std : List Row) : List Row :=
  (df_std.map (fun r =>
    { r with supplier := pyStrip r.supplier, product := pyStrip r.product })).filter survives

/-- Token of the regular-expression fragment modelled here.  pandas
`Series.str.contains` uses its default `regex=True`, so `apply_search`
hands the term to Python `re.search` as a pattern.  The model covers
patterns made of literal characters and the dot metacharacter (dot matches
any character except a newline); the claims are settled inside this
fragment. -/
inductive RTok where
  | lit (c : Char)
  | dot
deriving DecidableEq, Repr

/-- Reading the term as a pattern: a dot is the wildcard, everything else a
literal. -/
def parsePat (p : List Char) : List RTok :=
  p.map (fun c => if c = '.' then RTok.dot else RTok.lit c)

/-- Whether one pattern token matches one character. -/
def tokMatch : RTok → Char → Bool
  | RTok.lit c, d => c = d
  | RTok.dot, d => d ≠ '\n'

/-- Whether the pattern matches at the start of the text. -/
def matchHere : List RTok → List Char → Bool
  | [], _ => true
  | _ :: _, [] => false
  | t :: ts, c :: cs => tokMatch t c && matchHere ts cs

/-- Whether the pattern matches at some position of the text (Python
`re.search` semantics: try every start position left to right). -/
def searchFrom (ts : List RTok) : List Char → Bool
  | [] => matchHere ts []
  | c :: cs => matchHere ts (c :: cs) || searchFrom ts cs

/-- Python `re.search(pat, text) is not None` for the modelled fragment;
this is what `Series.str.contains(pat)` computes per cell. -/
def reSearch (pat text : String) : Bool :=
  searchFrom (parsePat pat.data) text.data

/-- One row of the OR-combined mask of `apply_search`: the lowered cell text
of each of the six canonical fields is searched with the term. -/
def rowMatches (term : String) (r : Row) : Bool :=
  reSearch term (pyLower r.supplier) || reSearch term (pyLower r.product) ||
  reSearch term (pyLower r.details) || reSearch term (pyLower r.website) ||
  reSearch term (pyLower r.phone) || reSearch term (pyLower r.login_info)

/-- app.py `apply_search`: trim and lowercase the term; an empty term passes
the table through; otherwise keep the rows whose mask is true. -/
def apply_search (df : List Row) (term : String) : List Row :=
  let t := pyLower (pyStrip term)
  if t = "" then df else df.filter (fun r => rowMatches t r)

/-- Plain substring containment on character lists, matching the claim
wording "the term is a substring of at least one of the six fields": prefix
test at every position. -/
def isPrefP : List Char → List Char → Bool
  | [], _ => true
  | _ :: _, [] => false
  | a :: as, b :: bs => a = b && isPrefP as bs

/-- Substring containment: the needle occurs somewhere in the haystack. -/
def isSubstr (needle : List Char) : List Char → Bool
  | [] => needle.isEmpty
  | c :: cs => isPrefP needle (c :: cs) || isSubstr needle cs

/-- The search predicate as the claim words it: case-insensitive substring
containment across the six canonical fields, OR-combined. -/
def substrMatch (t : String) (r : Row) : Bool :=
  isSubstr t.data (pyLower r.supplier).data || isSubstr t.data (pyLower r.product).data ||
  isSubstr t.data (pyLower r.details).data || isSubstr t.data (pyLower r.website).data ||
  isSubstr t.data (pyLower r.phone).data || isSubstr t.data (pyLower r.login_info).data

/-- Search as the claim describes it (substring containment), for comparison
with the implemented `apply_search`. -/
def apply_search_spec (df : List Row) (term : String) : List Row :=
  let t := pyLower (pyStrip term)
  if t = "" then df else df.filter (fun r => substrMatch t r)

/-- The characters that are special in Python regular expressions. -/
def regexMetas : List Char :=
  ['.', '^', '$', '*', '+', '?', '(', ')', '[', ']', '\\', '|', '\x7b', '\x7d']

/-- Whether a character is a Python regex metacharacter. -/
def isRegexMeta (c : Char) : Bool := regexMetas.contains c

/-- Details synthesis as the spec words it: over the raw columns not used by
the mapping, in original column order, emit `"<column>: <trimmed value>"`
for every usable cell and join with `" | "`. -/
def detailsSpec (headers used : List String) (row : List Value) : String :=
  String.intercalate " | "
    ((headers.filter (fun c => c ∉ used)).filterMap (fun c =>
      match usableVal (rowGet headers row c) with
      | none => none
      | some s => some (c ++ ": " ++ s)))

/-- The import-gate error surfaced by the app when a required field is
unmapped (`st.error("You must map Supplier and Product.")`), and the pandas
lookup error for a mapping naming an absent column. -/
inductive ImportError where
  | mappingError
  | keyError
deriving DecidableEq, Repr

/-- app.py line 279: `[k for k in ["supplier", "product"] if not mapping.get(k)]`. -/
def missing_required (m : Mapping) : List String :=
  ["supplier", "product"].filter (fun k => (m.get k).isNone)

/-- The import tab flow of app.py around `build_standard_df` (lines
279-283): with the effective mapping (auto-inferred, possibly overridden by
the user), block with an error when supplier or product is unmapped, and
only otherwise run standardization on the table. -/
def import_flow (df : DF) (m : Mapping) : Except ImportError (List Row) :=
  if missing_required m = [] then
    match build_standard_df df m with
    | some out => Except.ok out
    | none => Except.error ImportError.keyError
  else Except.error ImportError.mappingError

/-- The records table of db.py, restricted to what the claims speak about:
an ordered list of (dataset_id, record) pairs.  Serial record ids are not
modelled; per-dataset record content and order is. -/
def DBState : Type := List (Nat × Row)

/-- db.py `replace_dataset_with_df`, cell preparation: `df[c] = ""` for a
canonical column missing from the input frame, else the cell value. -/
def dbCellRaw (headers : List String) (row : List Value) (c : String) : Value :=
  match colIndex headers c with
  | some i => row.getD i Value.vmissing
  | none => Value.vstr ""

/-- db.py `replace_dataset_with_df`, `fillna("").astype(str)` on one cell. -/
def dbClean (v : Value) : String :=
  if isna v then "" else pyStr v

/-- One prepared record of `replace_dataset_with_df`: the six canonical
columns selected, missing ones filled with `""`, all stringified, and
supplier/product trimmed. -/
def dbRowOf (headers : List String) (row : List Value) : Row :=
  { supplier := pyStrip (dbClean (dbCellRaw headers row "supplier"))
    product := pyStrip (dbClean (dbCellRaw headers row "product"))
    details := dbClean (dbCellRaw headers row "details")
    website := dbClean (dbCellRaw headers row "website")
    phone := dbClean (dbCellRaw headers row "phone")
    login_info := dbClean (dbCellRaw headers row "login_info") }

/-- The prepared and filtered input rows of `replace_dataset_with_df` (the
`df` local after the required-field filter). -/
def dbNewRows (df : DF) : List Row :=
  (df.rows.map (dbRowOf df.headers)).filter survives

/-- db.py `replace_dataset_with_df`: prepare and filter the input rows,
delete all records of the target dataset (`DELETE ... WHERE dataset_id`),
and (unless nothing survived the filter, the early-return branch)
bulk-insert the survivors into the target dataset.  The CSV COPY transport
is modelled as the identity on records; serial id assignment keeps the
insertion order, so the new records sit at the tail. -/
def replace_dataset_with_df (db : DBState) (dataset_id : Nat) (df : DF) : DBState :=
  if (dbNewRows df).isEmpty then
    (db : List (Nat × Row)).filter (fun p => ¬ p.1 = dataset_id)
  else
    (db : List (Nat × Row)).filter (fun p => ¬ p.1 = dataset_id)
      ++ (dbNewRows df).map (fun r => (dataset_id, r))

/-- The records of one dataset, in stored order (db.py `load_dataset`
without the serial ids). -/
def datasetRecords (db : DBState) (dataset_id : Nat) : List Row :=
  ((db : List (Nat × Row)).filter (fun p => p.1 = dataset_id)).map (fun p => p.2)

/-- Mapping with only supplier and product mapped (to the normalized headers
of the examples below). -/
def exMapSP : Mapping :=
  { supplier := some "supplier", product := some "product", details := none,
    website := none, phone := none, login_info := none }

/-- The raw table of the details-synthesis example of the spec (headers
already normalized). -/
def exDetailsDF : DF :=
  { headers := ["supplier", "product", "notes x", "extra"],
    rows := [[Value.vstr "Acme", Value.vstr "Widget", Value.vstr "fragile", Value.vstr ""]] }

/-- Two-row table: the second row has an empty supplier cell. -/
def exTwoRowDF : DF :=
  { headers := ["supplier", "product"],
    rows := [[Value.vstr "Acme", Value.vstr "Widget"], [Value.vstr "", Value.vstr "Gadget"]] }

/-- The surviving record of `exTwoRowDF`. -/
def exAcmeRow : Row :=
  { supplier := "Acme", product := "Widget", details := "", website := "",
    phone := "", login_info := "" }

/-- Table whose supplier cell is the literal text `"nan"` and whose details
cell is the non-string scalar 42. -/
def exNanDF : DF :=
  { headers := ["s", "p", "d"],
    rows := [[Value.vstr "nan", Value.vstr "y", Value.vnum 42]] }

/-- Mapping for `exNanDF`. -/
def exNanMap : Mapping :=
  { supplier := some "s", product := some "p", details := some "d",
    website := none, phone := none, login_info := none }

/-- Canonical record used by the search counterexample. -/
def exAbcRow : Row :=
  { supplier := "abc", product := "p", details := "", website := "",
    phone := "", login_info := "" }

/-- A canonical record with already-trimmed non-empty required fields. -/
def exCleanRow : Row :=
  { supplier := "acme", product := "widget", details := "d", website := "w",
    phone := "ph", login_info := "li" }

/-- A two-dataset store used by the db witness. -/
def exDB : DBState :=
  [(1, exCleanRow), (2, exAbcRow)]

theorem survives_iff (r : Row) :
    survives r = true ↔ r.supplier ≠ "" ∧ r.product ≠ "" := by
  simp [survives]

theorem colIndex_isSome {headers : List String} {h : String} (hmem : h ∈ headers) :
    ∃ i, colIndex headers h = some i := by
  induction headers with
  | nil => cases hmem
  | cons c rest ih =>
    by_cases hch : c = h
    · exact ⟨0, by rw [colIndex, if_pos hch]⟩
    · have hm : h ∈ rest := by
        cases List.mem_cons.mp hmem with
        | inl he => exact absurd he.symm hch
        | inr hr => exact hr
      obtain ⟨i, hi⟩ := ih hm
      exact ⟨i + 1, by rw [colIndex, if_neg hch, hi]; rfl⟩

theorem getCol_of_index {df : DF} {h : String} {i : Nat}
    (hi : colIndex df.headers h = some i) :
    getCol df h = some (df.rows.map (fun row => row.getD i Value.vmissing)) := by
  unfold getCol
  rw [hi]

theorem getCol_map {df : DF} {h : String} {col : List Value}
    (hc : getCol df h = some col) :
    ∃ f : List Value → Value, col = df.rows.map f := by
  unfold getCol at hc
  cases hi : colIndex df.headers h with
  | none => rw [hi] at hc; cases hc
  | some i =>
    rw [hi] at hc
    cases hc
    exact ⟨fun row => row.getD i Value.vmissing, rfl⟩

theorem requiredCol_map {df : DF} {o : Option String} {col : List Value}
    (hc : requiredCol df o = some col) :
    ∃ f : List Value → Value, col = df.rows.map f := by
  cases o with
  | none => cases hc
  | some h => exact getCol_map hc

theorem optionalCol_map {df : DF} {o : Option String} {col : List Value}
    (hc : optionalCol df o = some col) :
    ∃ f : List Value → Value, col = df.rows.map f := by
  cases o with
  | none =>
    cases hc
    exact ⟨fun _ => Value.vstr "", rfl⟩
  | some h => exact getCol_map hc

theorem build_details_map (df : DF) (used : List String) :
    ∃ g : List Value → String,
      build_details_from_remaining_columns df used = df.rows.map g := by
  unfold build_details_from_remaining_columns
  split
  · exact ⟨fun _ => "", rfl⟩
  · exact ⟨_, rfl⟩

theorem detailsCol_map {df : DF} {m : Mapping} {col : List Value}
    (hc : detailsCol df m = some col) :
    ∃ f : List Value → Value, col = df.rows.map f := by
  unfold detailsCol at hc
  cases hd : m.details with
  | some h => rw [hd] at hc; exact getCol_map hc
  | none =>
    rw [hd] at hc
    obtain ⟨g, hg⟩ := build_details_map df (usedCols m)
    cases hc
    rw [hg, List.map_map]
    exact ⟨_, rfl⟩

theorem build_raw_unpack {df : DF} {m : Mapping} {recs : List Row}
    (h : build_raw_records df m = some recs) :
    ∃ sup prod web ph li det,
      requiredCol df m.supplier = some sup ∧
      requiredCol df m.product = some prod ∧
      optionalCol df m.website = some web ∧
      optionalCol df m.phone = some ph ∧
      optionalCol df m.login_info = some li ∧
      detailsCol df m = some det ∧
      recs = zipRows sup prod det web ph li := by
  unfold build_raw_records at h
  simp only [Option.bind_eq_some, Option.some.injEq] at h
  obtain ⟨sup, h1, prod, h2, web, h3, ph, h4, li, h5, det, h6, hrec⟩ := h
  exact ⟨sup, prod, web, ph, li, det, h1, h2, h3, h4, h5, h6, hrec.symm⟩

theorem zipRows_map {α : Type} (l : List α) (f1 f2 f3 f4 f5 f6 : α → Value) :
    zipRows (l.map f1) (l.map f2) (l.map f3) (l.map f4) (l.map f5) (l.map f6)
      = l.map (fun x =>
          { supplier := cleanCell (f1 x), product := cleanCell (f2 x),
            details := cleanCell (f3 x), website := cleanCell (f4 x),
            phone := cleanCell (f5 x), login_info := cleanCell (f6 x) }) := by
  induction l with
  | nil => rfl
  | cons a t ih => simp only [List.map_cons, zipRows, ih]

theorem build_raw_records_rows {df : DF} {m : Mapping} {recs : List Row}
    {hs hp : String} {i j : Nat}
    (hms : m.supplier = some hs) (hmp : m.product = some hp)
    (hi : colIndex df.headers hs = some i) (hj : colIndex df.headers hp = some j)
    (h : build_raw_records df m = some recs) :
    ∃ g : List Value → Row,
      recs = df.rows.map g ∧
      (∀ row, (g row).supplier = cleanCell (row.getD i Value.vmissing)) ∧
      (∀ row, (g row).product = cleanCell (row.getD j Value.vmissing)) := by
  obtain ⟨sup, prod, web, ph, li, det, h1, h2, h3, h4, h5, h6, hrec⟩ := build_raw_unpack h
  rw [hms] at h1
  rw [hmp] at h2
  have hsup : sup = df.rows.map (fun row => row.getD i Value.vmissing) := by
    have := getCol_of_index hi
    rw [show requiredCol df (some hs) = getCol df hs from rfl, this] at h1
    exact (Option.some.injEq _ _ ▸ h1).symm
  have hprod : prod = df.rows.map (fun row => row.getD j Value.vmissing) := by
    have := getCol_of_index hj
    rw [show requiredCol df (some hp) = getCol df hp from rfl, this] at h2
    exact (Option.some.injEq _ _ ▸ h2).symm
  obtain ⟨f3, hf3⟩ := optionalCol_map h3
  obtain ⟨f4, hf4⟩ := optionalCol_map h4
  obtain ⟨f5, hf5⟩ := optionalCol_map h5
  obtain ⟨f6, hf6⟩ := detailsCol_map h6
  subst hsup hprod hf3 hf4 hf5 hf6
  rw [zipRows_map] at hrec
  exact ⟨_, hrec, fun row => rfl, fun row => rfl⟩

theorem build_raw_records_shape {df : DF} {m : Mapping} {recs : List Row}
    (h : build_raw_records df m = some recs) :
    ∀ r ∈ recs, ∃ a b c d e f,
      r = { supplier := cleanCell a, product := cleanCell b, details := cleanCell c,
            website := cleanCell d, phone := cleanCell e, login_info := cleanCell f } := by
  obtain ⟨sup, prod, web, ph, li, det, h1, h2, h3, h4, h5, h6, hrec⟩ := build_raw_unpack h
  obtain ⟨f1, hf1⟩ := requiredCol_map h1
  obtain ⟨f2, hf2⟩ := requiredCol_map h2
  obtain ⟨f3, hf3⟩ := optionalCol_map h3
  obtain ⟨f4, hf4⟩ := optionalCol_map h4
  obtain ⟨f5, hf5⟩ := optionalCol_map h5
  obtain ⟨f6, hf6⟩ := detailsCol_map h6
  subst hf1 hf2 hf3 hf4 hf5 hf6
  rw [zipRows_map] at hrec
  intro r hr
  rw [hrec] at hr
  obtain ⟨row, _, hrow⟩ := List.mem_map.mp hr
  exact ⟨f1 row, f2 row, f6 row, f3 row, f4 row, f5 row, hrow.symm⟩

theorem firstAlias_mem {cols opts : List String} {h : String}
    (hfa : firstAlias cols opts = some h) : h ∈ cols := by
  induction opts with
  | nil => cases hfa
  | cons o rest ih =>
    by_cases hmem : norm o ∈ cols
    · rw [firstAlias, if_pos hmem] at hfa
      cases hfa
      exact hmem
    · rw [firstAlias, if_neg hmem] at hfa
      exact ih hfa

theorem firstAlias_none {cols opts : List String}
    (h : ∀ o ∈ opts, norm o ∉ cols) : firstAlias cols opts = none := by
  induction opts with
  | nil => rfl
  | cons o rest ih =>
    rw [firstAlias, if_neg (h o (List.mem_cons_self o rest))]
    exact ih (fun o2 ho2 => h o2 (List.mem_cons_of_mem o ho2))

theorem firstAlias_find? (cols opts : List String) :
    firstAlias cols opts = (opts.find? (fun o => norm o ∈ cols)).map norm := by
  induction opts with
  | nil => rfl
  | cons o rest ih =>
    by_cases hmem : norm o ∈ cols
    · rw [firstAlias, if_pos hmem, List.find?_cons_of_pos _ (by simpa using hmem)]
      rfl
    · rw [firstAlias, if_neg hmem, List.find?_cons_of_neg _ (by simpa using hmem)]
      exact ih

theorem mem_usedCols {m : Mapping} {h : String}
    (hc : m.supplier = some h ∨ m.product = some h ∨ m.details = some h ∨
      m.website = some h ∨ m.phone = some h ∨ m.login_info = some h) :
    h ∈ usedCols m := by
  unfold usedCols
  apply List.mem_filterMap.mpr
  refine ⟨some h, ?_, rfl⟩
  rcases hc with hc | hc | hc | hc | hc | hc <;> rw [← hc] <;> simp

theorem usedCols_mem {m : Mapping} {h : String} (hmem : h ∈ usedCols m) :
    m.supplier = some h ∨ m.product = some h ∨ m.details = some h ∨
      m.website = some h ∨ m.phone = some h ∨ m.login_info = some h := by
  unfold usedCols at hmem
  simp only [List.mem_filterMap, List.mem_cons, List.not_mem_nil, or_false, id] at hmem
  obtain ⟨o, ho, hid⟩ := hmem
  subst hid
  tauto

theorem infer_mapping_sub (cols : List String) :
    ∀ h ∈ usedCols (infer_mapping cols), h ∈ cols := by
  intro h hmem
  rcases usedCols_mem hmem with hc | hc | hc | hc | hc | hc <;>
    exact firstAlias_mem hc

theorem detailParts_filterMap (headers : List String) (row : List Value)
    (cs : List String) :
    detailParts headers row cs =
      cs.filterMap (fun c =>
        match usableVal (rowGet headers row c) with
        | none => none
        | some s => some (c ++ ": " ++ s)) := by
  induction cs with
  | nil => rfl
  | cons c rest ih =>
    rw [detailParts, List.filterMap_cons]
    cases usableVal (rowGet headers row c) with
    | none => exact ih
    | some s => rw [ih]

theorem contains_filter_eq (headers used : List String) :
    headers.filter (fun c => ¬ used.contains c) = headers.filter (fun c => c ∉ used) := by
  apply List.filter_congr
  intro c _
  simp [List.contains, List.elem_eq_mem]

theorem build_details_eq_spec (df : DF) (used : List String) :
    build_details_from_remaining_columns df used
      = df.rows.map (fun row => detailsSpec df.headers used row) := by
  unfold build_details_from_remaining_columns detailsSpec
  have hrem : remainingCols df used = df.headers.filter (fun c => c ∉ used) :=
    contains_filter_eq df.headers used
  split
  · next hemp =>
    apply List.map_congr_left
    intro row _
    rw [← hrem, List.isEmpty_iff.mp hemp]
    rfl
  · apply List.map_congr_left
    intro row _
    rw [row_details, detailParts_filterMap, ← hrem]

theorem cleanCell_stripped (v : Value) : pyStrip (cleanCell v) = cleanCell v := by
  unfold cleanCell
  split
  · rfl
  · exact pyStrip_idem _

theorem to_canonical_invariant (l : List Row)
    (h : ∀ r ∈ l, pyStrip r.supplier = r.supplier ∧ pyStrip r.product = r.product ∧
      r.supplier ≠ "" ∧ r.product ≠ "") :
    to_canonical l = l := by
  unfold to_canonical
  have hmap : l.map (fun r =>
      { r with supplier := pyStrip r.supplier, product := pyStrip r.product }) = l := by
    calc l.map (fun r => { r with supplier := pyStrip r.supplier, product := pyStrip r.product })
        = l.map id := List.map_congr_left (fun r hr => by
          obtain ⟨h1, h2, _, _⟩ := h r hr
          show ({ r with supplier := pyStrip r.supplier, product := pyStrip r.product } : Row) = r
          rw [h1, h2])
      _ = l := List.map_id l
  rw [hmap]
  apply List.filter_eq_self.mpr
  intro r hr
  obtain ⟨_, _, h3, h4⟩ := h r hr
  exact (survives_iff r).mpr ⟨h3, h4⟩

theorem build_standard_mem {df : DF} {m : Mapping} {out : List Row}
    (h : build_standard_df df m = some out) :
    ∀ r ∈ out, (pyStrip r.supplier = r.supplier ∧ pyStrip r.product = r.product) ∧
      survives r = true := by
  unfold build_standard_df at h
  cases hraw : build_raw_records df m with
  | none => rw [hraw] at h; cases h
  | some raw =>
    rw [hraw] at h
    have h2 : some (raw.filter survives) = some out := h
    cases Option.some.inj h2
    intro r hr
    have hsur := List.of_mem_filter hr
    have hmem := List.mem_of_mem_filter hr
    obtain ⟨a, b, c, d, e, f, hshape⟩ := build_raw_records_shape hraw r hmem
    subst hshape
    exact ⟨⟨cleanCell_stripped a, cleanCell_stripped b⟩, hsur⟩

theorem mapping_get_supplier (m : Mapping) : m.get "supplier" = m.supplier := rfl

theorem mapping_get_product (m : Mapping) : m.get "product" = m.product := rfl

theorem import_flow_gate {m : Mapping}
    (h : m.supplier = none ∨ m.product = none) :
    ∀ df, import_flow df m = Except.error ImportError.mappingError := by
  intro df
  unfold import_flow
  rw [if_neg]
  intro hemp
  unfold missing_required at hemp
  cases h with
  | inl hs =>
    have hmem : "supplier" ∈ List.filter (fun k => (Mapping.get m k).isNone)
        ["supplier", "product"] :=
      List.mem_filter.mpr ⟨by simp, by rw [mapping_get_supplier, hs]; rfl⟩
    rw [hemp] at hmem
    cases hmem
  | inr hp =>
    have hmem : "product" ∈ List.filter (fun k => (Mapping.get m k).isNone)
        ["supplier", "product"] :=
      List.mem_filter.mpr ⟨by simp, by rw [mapping_get_product, hp]; rfl⟩
    rw [hemp] at hmem
    cases hmem

theorem build_standard_isSome {df : DF} {m : Mapping} {hs hp : String}
    (hms : m.supplier = some hs) (hmp : m.product = some hp)
    (hmem : ∀ h ∈ usedCols m, h ∈ df.headers) :
    ∃ out, build_standard_df df m = some out := by
  have hsup : ∃ colS, requiredCol df m.supplier = some colS := by
    obtain ⟨i, hi⟩ := colIndex_isSome (hmem hs (mem_usedCols (Or.inl hms)))
    exact ⟨_, by rw [hms]; exact getCol_of_index hi⟩
  have hprod : ∃ colP, requiredCol df m.product = some colP := by
    obtain ⟨i, hi⟩ := colIndex_isSome (hmem hp (mem_usedCols (Or.inr (Or.inl hmp))))
    exact ⟨_, by rw [hmp]; exact getCol_of_index hi⟩
  have hweb : ∃ colW, optionalCol df m.website = some colW := by
    cases hw : m.website with
    | none => exact ⟨_, rfl⟩
    | some h =>
      obtain ⟨i, hi⟩ := colIndex_isSome
        (hmem h (mem_usedCols (Or.inr (Or.inr (Or.inr (Or.inl hw))))))
      exact ⟨_, getCol_of_index hi⟩
  have hph : ∃ colPh, optionalCol df m.phone = some colPh := by
    cases hw : m.phone with
    | none => exact ⟨_, rfl⟩
    | some h =>
      obtain ⟨i, hi⟩ := colIndex_isSome
        (hmem h (mem_usedCols (Or.inr (Or.inr (Or.inr (Or.inr (Or.inl hw)))))))
      exact ⟨_, getCol_of_index hi⟩
  have hli : ∃ colL, optionalCol df m.login_info = some colL := by
    cases hw : m.login_info with
    | none => exact ⟨_, rfl⟩
    | some h =>
      obtain ⟨i, hi⟩ := colIndex_isSome
        (hmem h (mem_usedCols (Or.inr (Or.inr (Or.inr (Or.inr (Or.inr hw)))))))
      exact ⟨_, getCol_of_index hi⟩
  have hdet : ∃ colD, detailsCol df m = some colD := by
    cases hd : m.details with
    | none => exact ⟨_, by unfold detailsCol; rw [hd]⟩
    | some h =>
      obtain ⟨i, hi⟩ := colIndex_isSome
        (hmem h (mem_usedCols (Or.inr (Or.inr (Or.inl hd)))))
      exact ⟨_, by unfold detailsCol; rw [hd]; exact getCol_of_index hi⟩
  obtain ⟨cS, h1⟩ := hsup
  obtain ⟨cP, h2⟩ := hprod
  obtain ⟨cW, h3⟩ := hweb
  obtain ⟨cPh, h4⟩ := hph
  obtain ⟨cL, h5⟩ := hli
  obtain ⟨cD, h6⟩ := hdet
  refine ⟨(zipRows cS cP cD cW cPh cL).filter survives, ?_⟩
  unfold build_standard_df build_raw_records
  rw [h1, Option.some_bind, h2, Option.some_bind, h3, Option.some_bind,
    h4, Option.some_bind, h5, Option.some_bind, h6, Option.some_bind]
  rfl

theorem matchHere_lits (ps : List Char) : ∀ text : List Char,
    matchHere (ps.map RTok.lit) text = isPrefP ps text := by
  induction ps with
  | nil => intro text; cases text <;> rfl
  | cons a as ih =>
    intro text
    cases text with
    | nil => rfl
    | cons b bs =>
      rw [List.map_cons, matchHere, isPrefP, tokMatch, ih bs]

theorem searchFrom_lits (ps text : List Char) :
    searchFrom (ps.map RTok.lit) text = isSubstr ps text := by
  induction text with
  | nil =>
    cases ps with
    | nil => rfl
    | cons a as => rfl
  | cons c cs ih =>
    rw [searchFrom, isSubstr, matchHere_lits, ih]

theorem parsePat_lits {p : List Char} (h : ∀ c ∈ p, c ≠ '.') :
    parsePat p = p.map RTok.lit := by
  unfold parsePat
  exact List.map_congr_left (fun c hc => by rw [if_neg (h c hc)])

theorem reSearch_substr {pat text : String} (h : ∀ c ∈ pat.data, c ≠ '.') :
    reSearch pat text = isSubstr pat.data text.data := by
  unfold reSearch
  rw [parsePat_lits h, searchFrom_lits]

theorem noMeta_no_dot {t : String} (h : ∀ c ∈ t.data, isRegexMeta c = false) :
    ∀ c ∈ t.data, c ≠ '.' := by
  intro c hc hdot
  have := h c hc
  rw [hdot] at this
  simp [isRegexMeta, regexMetas] at this

theorem rowMatches_substr {t : String} (h : ∀ c ∈ t.data, c ≠ '.') (r : Row) :
    rowMatches t r = substrMatch t r := by
  unfold rowMatches substrMatch
  rw [reSearch_substr h, reSearch_substr h, reSearch_substr h,
    reSearch_substr h, reSearch_substr h, reSearch_substr h]

theorem filter_pair_other (db : DBState) (did d : Nat) (hne : d ≠ did) :
    ((db : List (Nat × Row)).filter (fun p => ¬ p.1 = did)).filter (fun p => p.1 = d)
      = (db : List (Nat × Row)).filter (fun p => p.1 = d) := by
  rw [List.filter_filter]
  apply List.filter_congr
  intro p _
  by_cases hp : p.1 = d
  · have h2 : ¬ p.1 = did := by rw [hp]; exact hne
    simp [hp, h2, hne]
  · simp [hp]

theorem filter_pair_self (db : DBState) (did : Nat) :
    ((db : List (Nat × Row)).filter (fun p => ¬ p.1 = did)).filter (fun p => p.1 = did)
      = [] := by
  rw [List.filter_filter]
  rw [List.filter_eq_nil_iff]
  intro p _
  by_cases hp : p.1 = did <;> simp [hp]

theorem datasetRecords_replace_other (db : DBState) (did d : Nat) (df : DF)
    (hne : d ≠ did) :
    datasetRecords (replace_dataset_with_df db did df) d = datasetRecords db d := by
  unfold replace_dataset_with_df datasetRecords
  split
  · rw [filter_pair_other db did d hne]
  · rw [List.filter_append, filter_pair_other db did d hne]
    have hnil : ((dbNewRows df).map (fun r => (did, r))).filter (fun p => p.1 = d) = [] := by
      rw [List.filter_eq_nil_iff]
      intro p hp
      obtain ⟨r, _, hr⟩ := List.mem_map.mp hp
      rw [← hr]
      simp only [decide_eq_true_eq]
      exact fun hdd => hne hdd.symm
    rw [hnil, List.append_nil]

theorem datasetRecords_replace_target (db : DBState) (did : Nat) (df : DF) :
    datasetRecords (replace_dataset_with_df db did df) did = dbNewRows df := by
  unfold replace_dataset_with_df datasetRecords
  split
  · next hemp =>
    rw [filter_pair_self db did, List.isEmpty_iff.mp hemp]
    rfl
  · rw [List.filter_append, filter_pair_self db did, List.nil_append]
    have hfil : ((dbNewRows df).map (fun r => (did, r))).filter (fun p => p.1 = did)
        = (dbNewRows df).map (fun r => (did, r)) := by
      rw [List.filter_eq_self]
      intro p hp
      obtain ⟨r, _, hr⟩ := List.mem_map.mp hp
      rw [← hr]
      simp
    rw [hfil, List.map_map]
    simp

/-- C1: for every raw table and mapping whose supplier and product are
mapped to existing columns, every record output by `build_standard_df` has a
non-empty supplier and product; the output row count equals the number of
input rows whose mapped supplier and product cells are non-empty after
trimming; and the output is the order-preserving filter of the cleaned
records (densely reindexed by construction in the list model). -/
theorem claim_C1_row_survival (df : DF) (m : Mapping) (hs hp : String)
    (i j : Nat) (out : List Row)
    (hms : m.supplier = some hs) (hmp : m.product = some hp)
    (hi : colIndex df.headers hs = some i) (hj : colIndex df.headers hp = some j)
    (hout : build_standard_df df m = some out) :
    (∀ r ∈ out, r.supplier ≠ "" ∧ r.product ≠ "") ∧
    out.length = df.rows.countP (fun row =>
      cleanCell (row.getD i Value.vmissing) ≠ "" &&
      cleanCell (row.getD j Value.vmissing) ≠ "") ∧
    (∃ raw, build_raw_records df m = some raw ∧ out = raw.filter survives ∧
      List.Sublist out raw) := by
  unfold build_standard_df at hout
  cases hraw : build_raw_records df m with
  | none => rw [hraw] at hout; cases hout
  | some raw =>
    rw [hraw] at hout
    have h2 : some (raw.filter survives) = some out := hout
    cases Option.some.inj h2
    refine ⟨?_, ?_, raw, rfl, rfl, List.filter_sublist raw⟩
    · intro r hr
      exact (survives_iff r).mp (List.of_mem_filter hr)
    · obtain ⟨g, hg, hg1, hg2⟩ := build_raw_records_rows hms hmp hi hj hraw
      subst hg
      rw [← List.countP_eq_length_filter, List.countP_map]
      apply List.countP_congr
      intro row _
      show survives (g row) = true ↔ _
      unfold survives
      rw [hg1 row, hg2 row]

/-- C1 witness: the two-row example table; the second row is dropped. -/
theorem claim_C1_row_survival_witness :
    (∀ r ∈ [exAcmeRow], r.supplier ≠ "" ∧ r.product ≠ "") ∧
    ([exAcmeRow] : List Row).length = exTwoRowDF.rows.countP (fun row =>
      cleanCell (row.getD 0 Value.vmissing) ≠ "" &&
      cleanCell (row.getD 1 Value.vmissing) ≠ "") ∧
    (∃ raw, build_raw_records exTwoRowDF exMapSP = some raw ∧
      [exAcmeRow] = raw.filter survives ∧ List.Sublist [exAcmeRow] raw) :=
  claim_C1_row_survival exTwoRowDF exMapSP "supplier" "product" 0 1 [exAcmeRow]
    (by decide) (by decide) (by decide) (by decide) (by decide)

/-- C2: with details unmapped, the synthesized details column is, row by
row, exactly the fragments of the unused columns joined with a bar, as the
spec words it (`detailsSpec`); and in the concrete example of the spec the
standardized record carries details `"notes x: fragile"`. -/
theorem claim_C2_details_synthesis :
    (∀ (df : DF) (used : List String),
      build_details_from_remaining_columns df used
        = df.rows.map (fun row => detailsSpec df.headers used row)) ∧
    build_standard_df exDetailsDF exMapSP
      = some [{ supplier := "Acme", product := "Widget",
                details := "notes x: fragile", website := "", phone := "",
                login_info := "" }] :=
  ⟨build_details_eq_spec, by decide⟩

/-- C3: `infer_mapping` resolves each canonical field to the first alias of
its priority list whose normalized form is a present column (null when none
is), and in particular a header set containing `"vendor"` and
`"supplier name"` but not the earlier alias `"supplier"` resolves supplier
to `"supplier name"`, whatever the column order. -/
theorem claim_C3_alias_priority :
    (∀ cols : List String, infer_mapping cols =
      { supplier := (supplier_aliases.find? (fun o => norm o ∈ cols)).map norm,
        product := (product_aliases.find? (fun o => norm o ∈ cols)).map norm,
        details := (details_aliases.find? (fun o => norm o ∈ cols)).map norm,
        website := (website_aliases.find? (fun o => norm o ∈ cols)).map norm,
        phone := (phone_aliases.find? (fun o => norm o ∈ cols)).map norm,
        login_info := (login_info_aliases.find? (fun o => norm o ∈ cols)).map norm }) ∧
    (∀ cols : List String, "supplier" ∉ cols → "supplier name" ∈ cols →
      "vendor" ∈ cols → (infer_mapping cols).supplier = some "supplier name") := by
  constructor
  · intro cols
    unfold infer_mapping
    rw [firstAlias_find?, firstAlias_find?, firstAlias_find?, firstAlias_find?,
      firstAlias_find?, firstAlias_find?]
  · intro cols hns hsn _
    have h1 : norm "supplier" = "supplier" := by decide
    have h2 : norm "supplier name" = "supplier name" := by decide
    show firstAlias cols supplier_aliases = some "supplier name"
    rw [show supplier_aliases = "supplier" :: "supplier name" ::
      ["vendor", "vendor name", "company", "company name", "supplier_id",
       "supplier id", "supplierid"] from rfl]
    rw [firstAlias, h1, if_neg hns, firstAlias, h2, if_pos hsn]

/-- C3 witness: both column orders resolve supplier to `"supplier name"`. -/
theorem claim_C3_alias_priority_witness :
    (infer_mapping ["vendor", "supplier name"]).supplier = some "supplier name" ∧
    (infer_mapping ["supplier name", "vendor"]).supplier = some "supplier name" :=
  ⟨claim_C3_alias_priority.2 ["vendor", "supplier name"]
      (by decide) (by decide) (by decide),
    claim_C3_alias_priority.2 ["supplier name", "vendor"]
      (by decide) (by decide) (by decide)⟩

/-- C4: when no supplier alias is present among the (normalized) headers,
the import flow stops with the mapping error whatever the row data is, and
the flow never reaches standardization when supplier or product is
unmapped. -/
theorem claim_C4_required_gate (hs : List String)
    (hno : ∀ a ∈ supplier_aliases, norm a ∉ hs) :
    (∀ rows : List (List Value),
      import_flow { headers := hs, rows := rows } (infer_mapping hs)
        = Except.error ImportError.mappingError) ∧
    (∀ (df : DF) (m : Mapping), m.supplier = none ∨ m.product = none →
      import_flow df m = Except.error ImportError.mappingError) := by
  constructor
  · intro rows
    apply import_flow_gate
    exact Or.inl (firstAlias_none hno)
  · intro df m hm
    exact import_flow_gate hm df

/-- C4 witness: a table with only a product column is rejected. -/
theorem claim_C4_required_gate_witness :
    import_flow { headers := ["product"], rows := [[Value.vstr "x"]] }
      (infer_mapping ["product"]) = Except.error ImportError.mappingError :=
  (claim_C4_required_gate ["product"] (by decide)).1 [[Value.vstr "x"]]

/-- C5: `norm` is trim, then lowercase, then newline and tab to a single
space, and it is idempotent. -/
theorem claim_C5_norm_idempotent :
    (∀ s : String, norm s = pyReplaceTab (pyReplaceNL (pyLower (pyStrip s)))) ∧
    (∀ s : String, norm (norm s) = norm s) :=
  ⟨fun _ => rfl, norm_idem⟩

/-- C6 counterexample: a supplier cell holding the literal text `"nan"` and
a details cell holding the non-string scalar 42 are not normalized to the
empty string by `build_standard_df`: the record survives with supplier
`"nan"` and details `"42"`. -/
theorem claim_C6_counterexample :
    build_standard_df exNanDF exNanMap
      = some [{ supplier := "nan", product := "y", details := "42",
                website := "", phone := "", login_info := "" }] ∧
    ("nan" : String) ≠ "" ∧ ("42" : String) ≠ "" := by decide

/-- C6 amended: missing/null cells are normalized to the empty string and
never raise; non-string scalar cells are converted to their string form and
trimmed, not emptied; a cell whose text is the literal `"nan"` passes
through directly mapped fields unchanged; only the details synthesis skips
missing, blank, and (case-insensitive) `"nan"` cells. -/
theorem claim_C6_malformed_cells :
    (∀ v : Value, isna v = true → cleanCell v = "") ∧
    (∀ n : Int, cleanCell (Value.vnum n) = pyStrip (toString n)) ∧
    (∀ s : String, cleanCell (Value.vstr s) = pyStrip s) ∧
    (∀ v : Value, usableVal v = none ↔
      (isna v = true ∨ pyStrip (pyStr v) = "" ∨
        pyLower (pyStrip (pyStr v)) = "nan")) := by
  refine ⟨?_, fun n => rfl, fun s => rfl, ?_⟩
  · intro v hv
    unfold cleanCell
    rw [hv]
    rfl
  · intro v
    unfold usableVal
    cases hv : isna v
    · simp only [hv, Bool.false_eq_true, if_false, false_or]
      by_cases h2 : pyStrip (pyStr v) = "" ∨ pyLower (pyStrip (pyStr v)) = "nan"
      · simp [h2]
      · simp [h2]
    · simp [hv]

/-- C6 amended witness: a missing cell cleans to the empty string, and the
literal `"nan"` string is unusable for the synthesis yet cleans to itself. -/
theorem claim_C6_malformed_cells_witness :
    cleanCell Value.vmissing = "" ∧
    (usableVal (Value.vstr "nan") = none ↔
      (isna (Value.vstr "nan") = true ∨ pyStrip (pyStr (Value.vstr "nan")) = "" ∨
        pyLower (pyStrip (pyStr (Value.vstr "nan"))) = "nan")) :=
  ⟨claim_C6_malformed_cells.1 Value.vmissing rfl,
    claim_C6_malformed_cells.2.2.2 (Value.vstr "nan")⟩

/-- C7 counterexample: the term is used as a regular expression, not as a
plain substring: the term `"a.c"` matches the supplier `"abc"` through the
dot wildcard, while substring search finds nothing. -/
theorem claim_C7_counterexample :
    apply_search [exAbcRow] "a.c" = [exAbcRow] ∧
    apply_search_spec [exAbcRow] "a.c" = [] := by decide

/-- C7 amended: an empty or all-whitespace term returns the table
unchanged; and for terms free of regex metacharacters the search is exactly
the case-insensitive substring filter over the six canonical fields.  In
general the trimmed, lowercased term is a regular-expression pattern. -/
theorem claim_C7_search :
    (∀ (df : List Row) (term : String),
      pyLower (pyStrip term) = "" → apply_search df term = df) ∧
    (∀ (df : List Row) (term : String),
      (∀ c ∈ (pyLower (pyStrip term)).data, isRegexMeta c = false) →
      apply_search df term = apply_search_spec df term) := by
  constructor
  · intro df term h
    unfold apply_search
    rw [if_pos h]
  · intro df term h
    unfold apply_search apply_search_spec
    by_cases ht : pyLower (pyStrip term) = ""
    · rw [if_pos ht, if_pos ht]
    · rw [if_neg ht, if_neg ht]
      apply List.filter_congr
      intro r _
      exact rowMatches_substr (noMeta_no_dot h) r

/-- C7 amended witness: a whitespace term passes through, and a literal
term filters by substring. -/
theorem claim_C7_search_witness :
    apply_search [exAbcRow] "  " = [exAbcRow] ∧
    apply_search [exAbcRow] "ab" = apply_search_spec [exAbcRow] "ab" :=
  ⟨claim_C7_search.1 [exAbcRow] "  " (by decide),
    claim_C7_search.2 [exAbcRow] "ab" (by decide)⟩

/-- C8: the defensive trim-and-filter of `to_canonical` is the identity on
any table whose records are trimmed with non-empty supplier and product; in
particular on every output of `build_standard_df`. -/
theorem claim_C8_refilter_noop :
    (∀ l : List Row,
      (∀ r ∈ l, pyStrip r.supplier = r.supplier ∧ pyStrip r.product = r.product ∧
        r.supplier ≠ "" ∧ r.product ≠ "") → to_canonical l = l) ∧
    (∀ (df : DF) (m : Mapping) (out : List Row),
      build_standard_df df m = some out → to_canonical out = out) := by
  constructor
  · exact to_canonical_invariant
  · intro df m out hout
    apply to_canonical_invariant
    intro r hr
    obtain ⟨⟨h1, h2⟩, hsur⟩ := build_standard_mem hout r hr
    obtain ⟨h3, h4⟩ := (survives_iff r).mp hsur
    exact ⟨h1, h2, h3, h4⟩

/-- C8 witness: a clean record table and a concrete standardization output
are both fixed by `to_canonical`. -/
theorem claim_C8_refilter_noop_witness :
    to_canonical [exCleanRow] = [exCleanRow] ∧
    to_canonical [exAcmeRow] = [exAcmeRow] :=
  ⟨claim_C8_refilter_noop.1 [exCleanRow] (by decide),
    claim_C8_refilter_noop.2 exTwoRowDF exMapSP [exAcmeRow] (by decide)⟩

/-- C9: `replace_dataset_with_df` leaves every other dataset untouched and
afterwards the target dataset holds exactly the prepared input rows (missing
canonical columns filled with the empty string, supplier and product
trimmed) that pass the non-empty filter; when nothing passes, the target is
left empty. -/
theorem claim_C9_replace_dataset (db : DBState) (did : Nat) (df : DF) :
    (∀ d, d ≠ did →
      datasetRecords (replace_dataset_with_df db did df) d = datasetRecords db d) ∧
    datasetRecords (replace_dataset_with_df db did df) did
      = (df.rows.map (dbRowOf df.headers)).filter survives ∧
    ((df.rows.map (dbRowOf df.headers)).filter survives = [] →
      datasetRecords (replace_dataset_with_df db did df) did = []) := by
  refine ⟨fun d hd => datasetRecords_replace_other db did d df hd,
    datasetRecords_replace_target db did df, ?_⟩
  intro hnil
  rw [datasetRecords_replace_target db did df]
  exact hnil

/-- C9 witness: overwriting dataset 1 with the two-row table keeps dataset 2
intact and installs exactly the surviving prepared row. -/
theorem claim_C9_replace_dataset_witness :
    datasetRecords (replace_dataset_with_df exDB 1 exTwoRowDF) 2
      = datasetRecords exDB 2 ∧
    datasetRecords (replace_dataset_with_df exDB 1 exTwoRowDF) 1
      = (exTwoRowDF.rows.map (dbRowOf exTwoRowDF.headers)).filter survives :=
  ⟨(claim_C9_replace_dataset exDB 1 exTwoRowDF).1 2 (by decide),
    (claim_C9_replace_dataset exDB 1 exTwoRowDF).2.1⟩

/-- C10: every mapped header produced by `infer_mapping` is one of the input
columns, so when the auto-inferred mapping has supplier and product mapped,
`build_standard_df` on the same table cannot hit a column-lookup failure. -/
theorem claim_C10_no_lookup_failure :
    (∀ (cols : List String) (h : String),
      h ∈ usedCols (infer_mapping cols) → h ∈ cols) ∧
    (∀ df : DF,
      ((infer_mapping df.headers).supplier).isSome = true →
      ((infer_mapping df.headers).product).isSome = true →
      ∃ out, build_standard_df df (infer_mapping df.headers) = some out) := by
  constructor
  · exact fun cols => infer_mapping_sub cols
  · intro df hsup hprod
    obtain ⟨hs, hhs⟩ := Option.isSome_iff_exists.mp hsup
    obtain ⟨hp, hhp⟩ := Option.isSome_iff_exists.mp hprod
    exact build_standard_isSome hhs hhp (infer_mapping_sub df.headers)

/-- C10 witness: on the two-row table the auto-inferred mapping is total on
the required fields and standardization succeeds. -/
theorem claim_C10_no_lookup_failure_witness :
    ("vendor" ∈ ["vendor"]) ∧
    (∃ out, build_standard_df exTwoRowDF (infer_mapping exTwoRowDF.headers)
      = some out) :=
  ⟨claim_C10_no_lookup_failure.1 ["vendor"] "vendor" (by decide),
    claim_C10_no_lookup_failure.2 exTwoRowDF (by decide) (by decide)⟩
